import Mathlib

set_option linter.unusedVariables false

namespace DocApp

/-- A Python/JSON-like value, as manipulated by `parse_ai_response` in
`src/app.py`.  Mappings are association lists with string keys (the only key
type the app ever produces: JSON object keys are strings); JSON floats are
kept opaquely as their source token, since no claim depends on float
arithmetic. -/
inductive PyVal where
  | none : PyVal
  | bool (b : Bool) : PyVal
  | int (i : Int) : PyVal
  | float (tok : String) : PyVal
  | str (s : String) : PyVal
  | list (xs : List PyVal) : PyVal
  | dict (kvs : List (String × PyVal)) : PyVal
deriving Repr

mutual

/-- Structural equality on `PyVal`, modelling Python `==` on the values this
app produces.  (Python additionally identifies `True == 1` and `1 == 1.0`;
the claims that depend on equality only quantify over homogeneous int keys,
where Python equality and structural equality coincide.) -/
def pyEqB : PyVal → PyVal → Bool
  | .none, .none => true
  | .bool a, .bool b => a == b
  | .int a, .int b => a == b
  | .float a, .float b => a == b
  | .str a, .str b => a == b
  | .list a, .list b => pyEqList a b
  | .dict a, .dict b => pyEqDict a b
  | _, _ => false

def pyEqList : List PyVal → List PyVal → Bool
  | [], [] => true
  | a :: as, b :: bs => pyEqB a b && pyEqList as bs
  | _, _ => false

def pyEqDict : List (String × PyVal) → List (String × PyVal) → Bool
  | [], [] => true
  | (k, a) :: as, (l, b) :: bs => k == l && pyEqB a b && pyEqDict as bs
  | _, _ => false

end

mutual

theorem pyEqB_iff : ∀ (a b : PyVal), pyEqB a b = true ↔ a = b
  | .none, b => by cases b <;> simp [pyEqB]
  | .bool x, b => by cases b <;> simp [pyEqB]
  | .int x, b => by cases b <;> simp [pyEqB]
  | .float x, b => by cases b <;> simp [pyEqB]
  | .str x, b => by cases b <;> simp [pyEqB]
  | .list xs, .list ys => by simp [pyEqB, pyEqList_iff xs ys]
  | .list xs, .none => by simp [pyEqB]
  | .list xs, .bool y => by simp [pyEqB]
  | .list xs, .int y => by simp [pyEqB]
  | .list xs, .float y => by simp [pyEqB]
  | .list xs, .str y => by simp [pyEqB]
  | .list xs, .dict y => by simp [pyEqB]
  | .dict xs, .dict ys => by simp [pyEqB, pyEqDict_iff xs ys]
  | .dict xs, .none => by simp [pyEqB]
  | .dict xs, .bool y => by simp [pyEqB]
  | .dict xs, .int y => by simp [pyEqB]
  | .dict xs, .float y => by simp [pyEqB]
  | .dict xs, .str y => by simp [pyEqB]
  | .dict xs, .list y => by simp [pyEqB]

theorem pyEqList_iff : ∀ (as bs : List PyVal), pyEqList as bs = true ↔ as = bs
  | [], [] => by simp [pyEqList]
  | [], b :: bs => by simp [pyEqList]
  | a :: as, [] => by simp [pyEqList]
  | a :: as, b :: bs => by
      simp [pyEqList, pyEqB_iff a b, pyEqList_iff as bs]

theorem pyEqDict_iff : ∀ (as bs : List (String × PyVal)), pyEqDict as bs = true ↔ as = bs
  | [], [] => by simp [pyEqDict]
  | [], b :: bs => by simp [pyEqDict]
  | a :: as, [] => by simp [pyEqDict]
  | (k, a) :: as, (l, b) :: bs => by
      simp [pyEqDict, pyEqB_iff a b, pyEqDict_iff as bs, and_assoc]

end

/-- `d.get(k)` on a Python dict with string keys: `some v` when the key is
present with value `v`, `none` when absent. -/
def dget (d : List (String × PyVal)) (k : String) : Option PyVal :=
  (d.find? (fun kv => kv.1 == k)).map Prod.snd

/-- Python truthiness (`bool(v)`) for the modelled values.  For the opaque
float token, a token whose mantissa has a nonzero digit is truthy (the
underflow corner `1e-1000 == 0.0` is outside the modelled claims). -/
def pyTruthy : PyVal → Bool
  | .none => false
  | .bool b => b
  | .int i => i != 0
  | .float tok => (tok.toList.takeWhile (fun c => c != 'e' && c != 'E')).any
      (fun c => '1' ≤ c && c ≤ '9')
  | .str s => !s.isEmpty
  | .list xs => !xs.isEmpty
  | .dict kvs => !kvs.isEmpty

/-- `v is None` in Python. -/
def isNone : PyVal → Bool
  | .none => true
  | _ => false

mutual

/-- Python `repr` of a value, best effort: used only through `pyStr`, whose
behaviour on strings (the only case the claims evaluate) is exact.  String
escaping inside containers is simplified to plain quoting. -/
def pyRepr : PyVal → String
  | .none => "None"
  | .bool true => "True"
  | .bool false => "False"
  | .int i => toString i
  | .float tok => tok
  | .str s => "\x27" ++ s ++ "\x27"
  | .list xs => "[" ++ pyReprItems xs ++ "]"
  | .dict kvs => "\x7b" ++ pyReprEntries kvs ++ "\x7d"

def pyReprItems : List PyVal → String
  | [] => ""
  | [x] => pyRepr x
  | x :: xs => pyRepr x ++ ", " ++ pyReprItems xs

def pyReprEntries : List (String × PyVal) → String
  | [] => ""
  | [(k, v)] => "\x27" ++ k ++ "\x27: " ++ pyRepr v
  | (k, v) :: kvs => "\x27" ++ k ++ "\x27: " ++ pyRepr v ++ ", " ++ pyReprEntries kvs

end

/-- Python `str(v)`: the string itself for strings, `repr`-style otherwise. -/
def pyStr : PyVal → String
  | .str s => s
  | v => pyRepr v

/- ------------------------------------------------------------------ -/
/- A small JSON reader modelling `json.loads` (src/app.py line 158).
   It covers objects, arrays, strings with the standard escapes, integers,
   floats (kept as opaque tokens), `true`/`false`/`null`, and the JSON
   whitespace rules, requiring the whole input to be consumed.  Python's
   `NaN`/`Infinity` extensions are outside the modelled claims.  Fuel is
   structural and chosen generously so it never runs out on the inputs the
   theorems evaluate. -/

def isJsonWs (c : Char) : Bool := c == ' ' || c == '\t' || c == '\n' || c == '\r'

def skipWs : List Char → List Char
  | [] => []
  | c :: cs => if isJsonWs c then skipWs cs else c :: cs

def hexVal (c : Char) : Option Nat :=
  if '0' ≤ c && c ≤ '9' then some (c.toNat - 48)
  else if 'a' ≤ c && c ≤ 'f' then some (c.toNat - 87)
  else if 'A' ≤ c && c ≤ 'F' then some (c.toNat - 55)
  else Option.none

def parseStrChars : Nat → List Char → Option (List Char × List Char)
  | 0, _ => Option.none
  | _, [] => Option.none
  | fuel + 1, c :: cs =>
    if c == '\"' then some ([], cs)
    else if c == '\\' then
      match cs with
      | [] => Option.none
      | e :: rest =>
        let esc : Option (Char × List Char) :=
          if e == '\"' then some ('\"', rest)
          else if e == '\\' then some ('\\', rest)
          else if e == '/' then some ('/', rest)
          else if e == 'b' then some (Char.ofNat 8, rest)
          else if e == 'f' then some (Char.ofNat 12, rest)
          else if e == 'n' then some ('\n', rest)
          else if e == 'r' then some ('\r', rest)
          else if e == 't' then some ('\t', rest)
          else if e == 'u' then
            match rest with
            | h1 :: h2 :: h3 :: h4 :: rest2 =>
              match hexVal h1, hexVal h2, hexVal h3, hexVal h4 with
              | some a, some b, some c2, some d =>
                  some (Char.ofNat (((a * 16 + b) * 16 + c2) * 16 + d), rest2)
              | _, _, _, _ => Option.none
            | _ => Option.none
          else Option.none
        match esc with
        | some (ch, rest2) =>
          match parseStrChars fuel rest2 with
          | some (out, rem) => some (ch :: out, rem)
          | Option.none => Option.none
        | Option.none => Option.none
    else if c.toNat < 32 then Option.none
    else
      match parseStrChars fuel cs with
      | some (out, rem) => some (c :: out, rem)
      | Option.none => Option.none

def natOfDigits (ds : List Char) : Nat :=
  ds.foldl (fun n c => n * 10 + (c.toNat - 48)) 0

/-- Reads an optional exponent part of a JSON number, returning the consumed
characters (empty when there is no exponent) and the remaining input. -/
def parseExp : List Char → Option (List Char × List Char)
  | [] => some ([], [])
  | c :: rest =>
    if c == 'e' || c == 'E' then
      match rest with
      | s :: rest2 =>
        if s == '+' || s == '-' then
          let ds := rest2.takeWhile Char.isDigit
          if ds.isEmpty then Option.none
          else some (c :: s :: ds, rest2.dropWhile Char.isDigit)
        else
          let ds := rest.takeWhile Char.isDigit
          if ds.isEmpty then Option.none
          else some (c :: ds, rest.dropWhile Char.isDigit)
      | [] => Option.none
    else some ([], c :: rest)

def parseNumber (cs : List Char) : Option (PyVal × List Char) :=
  let signed : Bool × List Char :=
    match cs with
    | '-' :: rest => (true, rest)
    | _ => (false, cs)
  let neg := signed.1
  let cs1 := signed.2
  let digs := cs1.takeWhile Char.isDigit
  let rest1 := cs1.dropWhile Char.isDigit
  if digs.isEmpty then Option.none
  else if digs.length > 1 && digs.head? = some '0' then Option.none
  else
    match rest1 with
    | '.' :: rest2 =>
      let frac := rest2.takeWhile Char.isDigit
      if frac.isEmpty then Option.none
      else
        match parseExp (rest2.dropWhile Char.isDigit) with
        | some (ec, rest3) =>
          some (.float (String.mk ((if neg then ['-'] else []) ++ digs ++ '.' :: frac ++ ec)), rest3)
        | Option.none => Option.none
    | _ =>
      match parseExp rest1 with
      | some ([], _) =>
        some (.int (if neg then -(natOfDigits digs : Int) else (natOfDigits digs : Int)), rest1)
      | some (ec, rest3) =>
        some (.float (String.mk ((if neg then ['-'] else []) ++ digs ++ ec)), rest3)
      | Option.none => Option.none

def parseLit : List Char → Option (PyVal × List Char)
  | 't' :: 'r' :: 'u' :: 'e' :: rest => some (.bool true, rest)
  | 'f' :: 'a' :: 'l' :: 's' :: 'e' :: rest => some (.bool false, rest)
  | 'n' :: 'u' :: 'l' :: 'l' :: rest => some (.none, rest)
  | cs => parseNumber cs

/-- Inserting a key into a decoded JSON object: like a Python dict, a
duplicate key keeps its original position and takes the later value. -/
def objInsert : List (String × PyVal) → String → PyVal → List (String × PyVal)
  | [], k, v => [(k, v)]
  | (k0, v0) :: rest, k, v =>
    if k0 == k then (k0, v) :: rest else (k0, v0) :: objInsert rest k v

mutual

def parseVal : Nat → List Char → Option (PyVal × List Char)
  | 0, _ => Option.none
  | fuel + 1, cs =>
    match skipWs cs with
    | [] => Option.none
    | c :: rest =>
      if c == '\"' then
        match parseStrChars fuel rest with
        | some (out, rem) => some (.str (String.mk out), rem)
        | Option.none => Option.none
      else if c == Char.ofNat 123 then
        match skipWs rest with
        | c2 :: rest2 =>
          if c2 == Char.ofNat 125 then some (.dict [], rest2)
          else parseObjItems fuel (c2 :: rest2) []
        | [] => Option.none
      else if c == '[' then
        match skipWs rest with
        | ']' :: rest2 => some (.list [], rest2)
        | rest2 => parseArrItems fuel rest2 []
      else parseLit (c :: rest)

def parseArrItems : Nat → List Char → List PyVal → Option (PyVal × List Char)
  | 0, _, _ => Option.none
  | fuel + 1, cs, acc =>
    match parseVal fuel cs with
    | some (v, rest) =>
      match skipWs rest with
      | ',' :: rest2 => parseArrItems fuel rest2 (acc ++ [v])
      | ']' :: rest2 => some (.list (acc ++ [v]), rest2)
      | _ => Option.none
    | Option.none => Option.none

def parseObjItems : Nat → List Char → List (String × PyVal) → Option (PyVal × List Char)
  | 0, _, _ => Option.none
  | fuel + 1, cs, acc =>
    match cs with
    | q :: rest =>
      if q == '\"' then
        match parseStrChars fuel rest with
        | some (kout, rest2) =>
          match skipWs rest2 with
          | ':' :: rest3 =>
            match parseVal fuel rest3 with
            | some (v, rest4) =>
              let acc2 := objInsert acc (String.mk kout) v
              match skipWs rest4 with
              | ',' :: rest5 => parseObjItems fuel (skipWs rest5) acc2
              | c2 :: rest5 =>
                if c2 == Char.ofNat 125 then some (.dict acc2, rest5) else Option.none
              | [] => Option.none
            | Option.none => Option.none
          | _ => Option.none
        | Option.none => Option.none
      else Option.none
    | [] => Option.none

end

/-- `json.loads` on a string: decode one JSON value, allowing surrounding
whitespace, requiring the entire input to be consumed. -/
def jsonLoads (s : String) : Option PyVal :=
  match parseVal (16 * (s.length + 4)) s.toList with
  | some (v, rest) => if (skipWs rest).isEmpty then some v else Option.none
  | Option.none => Option.none

/- ------------------------------------------------------------------ -/
/- The normalizer `parse_ai_response` (src/app.py lines 134-230). -/

/-- The Python exceptions that can arise inside the `try` block of
`parse_ai_response`. -/
inductive PyErr where
  | jsonDecodeError : PyErr
  | typeError : PyErr
  | attrError : PyErr
  | indexError : PyErr
deriving Repr, DecidableEq

/-- Whether the `except (json.JSONDecodeError, TypeError, AttributeError)`
clause at src/app.py line 226 catches the exception. -/
def pyCaught : PyErr → Bool
  | .jsonDecodeError => true
  | .typeError => true
  | .attrError => true
  | .indexError => false

/-- One processed element, the dict built at src/app.py lines 198-206. -/
structure ProcessedElem where
  type : String
  content : PyVal
  description : PyVal
  id : PyVal
  page_id : PyVal
  bbox : PyVal
  raw : PyVal
deriving Repr

/-- `str.lower()` on the label strings the classifier sees (ASCII; Python's
Unicode-aware lowering agrees on them). -/
def strLower (s : String) : String := String.mk (s.data.map Char.toLower)

/-- `.lower()` on a value: succeeds on strings, raises `AttributeError`
otherwise (line 194 applies it to `elem.get('type', 'unknown')`). -/
def pyLower : PyVal → Except PyErr String
  | .str s => .ok (strLower s)
  | _ => .error .attrError

/-- Line 203 of src/app.py:
`elem.get('page_id', elem.get('bbox', [\x7b\x7d])[0].get('page_id') if isinstance(elem.get('bbox'), list) else None)`.
Python evaluates the default expression first, so when `bbox` is a list the
`[0]` indexing runs even if `page_id` is present: an empty `bbox` list raises
`IndexError`, and a non-mapping first entry raises `AttributeError` from
`.get`. -/
def pageIdDefault (d : List (String × PyVal)) : Except PyErr PyVal :=
  match dget d "bbox" with
  | some (.list []) => .error .indexError
  | some (.list (PyVal.dict b0 :: _)) => .ok ((dget b0 "page_id").getD .none)
  | some (.list (_ :: _)) => .error .attrError
  | _ => .ok .none

def resolvePageId (d : List (String × PyVal)) : Except PyErr PyVal :=
  match pageIdDefault d with
  | .error e => .error e
  | .ok v => .ok ((dget d "page_id").getD v)

/-- Lines 194-206: build the processed element for one mapping entry.
The `.lower()` on the type runs before the `page_id` default expression,
matching the statement order in the source. -/
def processElem (d : List (String × PyVal)) : Except PyErr ProcessedElem :=
  match pyLower ((dget d "type").getD (.str "unknown")) with
  | .error e => .error e
  | .ok t =>
    match resolvePageId d with
    | .error e => .error e
    | .ok p =>
      .ok { type := t
            content := (dget d "content").getD (.str "")
            description := (dget d "description").getD (.str "")
            id := (dget d "id").getD .none
            page_id := p
            bbox := (dget d "bbox").getD ((dget d "coord").getD .none)
            raw := .dict d }

def isTableType (t : String) : Bool := t == "table" || t == "tables"

def isFigureType (t : String) : Bool :=
  t == "figure" || t == "image" || t == "picture" || t == "chart" || t == "diagram"

def isHeaderType (t : String) : Bool :=
  t == "header" || t == "page_header" || t == "title" || t == "heading" || t == "section_header"

/-- Lines 219-222: the contribution of one element to the plain-text parts. -/
def partOf (pe : ProcessedElem) : Option String :=
  if pyTruthy pe.content then some (pyStr pe.content)
  else if pyTruthy pe.description then
    some ("[" ++ pe.type ++ ": " ++ pyStr pe.description ++ "]")
  else Option.none

/-- The mutable lists the element loop (lines 189-222) appends to. -/
structure RunAcc where
  elements : List ProcessedElem
  tables : List ProcessedElem
  figures : List ProcessedElem
  headers : List ProcessedElem
  parts : List String
deriving Repr

def emptyAcc : RunAcc := ⟨[], [], [], [], []⟩

/-- Lines 208-222: append a fully built element to `elements`, to the
matching category bucket per the `elif` chain, and its plain-text part. -/
def pushElem (acc : RunAcc) (pe : ProcessedElem) : RunAcc :=
  let acc1 := { acc with elements := acc.elements ++ [pe] }
  let acc2 :=
    if isTableType pe.type then { acc1 with tables := acc1.tables ++ [pe] }
    else if isFigureType pe.type then { acc1 with figures := acc1.figures ++ [pe] }
    else if isHeaderType pe.type then { acc1 with headers := acc1.headers ++ [pe] }
    else acc1
  match partOf pe with
  | some p => { acc2 with parts := acc2.parts ++ [p] }
  | Option.none => acc2

/-- The element loop (lines 190-222): non-mapping items are skipped by the
`continue`; a raised exception stops the loop, leaving the lists with what
was appended before the offending item. -/
def runElems : List PyVal → RunAcc → RunAcc × Option PyErr
  | [], acc => (acc, Option.none)
  | x :: xs, acc =>
    match x with
    | .dict d =>
      match processElem d with
      | .error e => (acc, some e)
      | .ok pe => runElems xs (pushElem acc pe)
    | _ => runElems xs acc

/-- What the shape-sniffing branch (lines 164-186) assigns before the
element loop: the elements source, `result['metadata']` and
`result['plain_text']`. -/
structure ShapeOut where
  elements : PyVal
  metadata : List (String × PyVal)
  plain_text : String
deriving Repr

def filterKey (d : List (String × PyVal)) (k : String) : List (String × PyVal) :=
  d.filter (fun kv => kv.1 != k)

/-- Lines 164-186 of src/app.py: ordered shape dispatch on the decoded
payload. -/
def shapeBranch : PyVal → ShapeOut
  | .dict d =>
    match dget d "document" with
    | some (.dict dd) => ⟨(dget dd "elements").getD (.list []), filterKey dd "elements", ""⟩
    | _ =>
      match dget d "elements" with
      | some v => ⟨v, filterKey d "elements", ""⟩
      | Option.none =>
        match dget d "content" with
        | some v => ⟨.list [], [], pyStr v⟩
        | Option.none =>
          match dget d "text" with
          | some v => ⟨.list [], [], pyStr v⟩
          | Option.none => ⟨.list [], d, ""⟩
  | .list xs => ⟨.list xs, [], ""⟩
  | _ => ⟨.list [], [], ""⟩

/-- `for elem in elements` (line 190): iterating a list yields its items, a
string its characters, a dict its keys; other values raise `TypeError`. -/
def iterElems : PyVal → Except PyErr (List PyVal)
  | .list xs => .ok xs
  | .str s => .ok (s.toList.map (fun c => .str c.toString))
  | .dict kvs => .ok (kvs.map (fun kv => PyVal.str kv.1))
  | _ => .error .typeError

/-- The `result` dict of `parse_ai_response` (lines 139-148). -/
structure ParseResult where
  is_json : Bool
  elements : List ProcessedElem
  raw_content : PyVal
  plain_text : String
  tables : List ProcessedElem
  figures : List ProcessedElem
  headers : List ProcessedElem
  metadata : List (String × PyVal)
deriving Repr

/-- Lines 139-148: the initial `result` value. -/
def initResult (content : PyVal) : ParseResult :=
  ⟨false, [], content, "", [], [], [], []⟩

/-- Lines 156-160: a string goes through `json.loads`, any other value is
used as already decoded. -/
def decodeContent : PyVal → Except PyErr PyVal
  | .str s =>
    match jsonLoads s with
    | some v => .ok v
    | Option.none => .error .jsonDecodeError
  | v => .ok v

/-- The `result` dict just after line 162 and the shape branch: `is_json`
set to true, `metadata` and `plain_text` as the branch assigned them. -/
def structuredInit (content : PyVal) (sh : ShapeOut) : ParseResult :=
  { initResult content with
      is_json := true, metadata := sh.metadata, plain_text := sh.plain_text }

/-- Copy the four lists the element loop appended to into the result. -/
def withAcc (r : ParseResult) (acc : RunAcc) : ParseResult :=
  { r with elements := acc.elements, tables := acc.tables,
           figures := acc.figures, headers := acc.headers }

/-- Lines 188-224: run the element loop over the elements source and, on
normal completion, unconditionally overwrite `plain_text` with the joined
parts (line 224).  An error carries the partially mutated `result`, as the
Python dict would be at the moment the exception is raised. -/
def runStage (content : PyVal) (sh : ShapeOut) : Except (PyErr × ParseResult) ParseResult :=
  match iterElems sh.elements with
  | .error e => .error (e, structuredInit content sh)
  | .ok items =>
    match runElems items emptyAcc with
    | (acc, some e) => .error (e, withAcc (structuredInit content sh) acc)
    | (acc, Option.none) =>
      .ok { withAcc (structuredInit content sh) acc with
              plain_text := String.intercalate "\n\n" acc.parts }

/-- The body of the `try` block (lines 154-224). -/
def tryBody (content : PyVal) : Except (PyErr × ParseResult) ParseResult :=
  match decodeContent content with
  | .error e => .error (e, initResult content)
  | .ok parsed => runStage content (shapeBranch parsed)

/-- `parse_ai_response` (src/app.py lines 134-230).  A falsy input returns
the initial result; otherwise the try body runs, the except clause (line
226) catches `JSONDecodeError`/`TypeError`/`AttributeError` and overwrites
`plain_text` with `str(content)`, and any other exception propagates. -/
def parse_ai_response (content : PyVal) : Except PyErr ParseResult :=
  if pyTruthy content then
    match tryBody content with
    | .ok r => .ok r
    | .error (e, rp) =>
      if pyCaught e then .ok { rp with plain_text := pyStr content }
      else .error e
  else .ok (initResult content)

/- ------------------------------------------------------------------ -/
/- Consumers in display_parsed_content (src/app.py lines 287-395). -/

/-- Line 359 and the download button at lines 368-374: the data of the
"download as text" export is `parsed['plain_text'] or parsed['raw_content']`. -/
def downloadTextData (r : ParseResult) : PyVal :=
  if r.plain_text != "" then .str r.plain_text else r.raw_content

/-- Lines 389-395: the data of the "download as JSON" export. -/
def downloadJsonData (r : ParseResult) : PyVal := r.raw_content

/-- One step of the page-grouping loop at lines 307-314: append the element
to the bucket of its key, creating the bucket at the end on first sight,
like a Python dict insertion. -/
def addToBuckets : List (PyVal × List ProcessedElem) → PyVal → ProcessedElem →
    List (PyVal × List ProcessedElem)
  | [], k, e => [(k, [e])]
  | (k0, l) :: rest, k, e =>
    if pyEqB k0 k then (k0, l ++ [e]) :: rest
    else (k0, l) :: addToBuckets rest k e

def groupByPageAux : List ProcessedElem →
    List (PyVal × List ProcessedElem) × List ProcessedElem →
    List (PyVal × List ProcessedElem) × List ProcessedElem
  | [], st => st
  | e :: es, (bs, nop) =>
    if isNone e.page_id then groupByPageAux es (bs, nop ++ [e])
    else groupByPageAux es (addToBuckets bs e.page_id e, nop)

/-- Lines 303-314 of src/app.py: bucket elements by `page_id`, keeping
elements whose `page_id` is `None` in the separate `no_page_elements` list. -/
def groupByPage (es : List ProcessedElem) :
    List (PyVal × List ProcessedElem) × List ProcessedElem :=
  groupByPageAux es ([], [])

def bucketLookup (bs : List (PyVal × List ProcessedElem)) (k : PyVal) :
    Option (List ProcessedElem) :=
  (bs.find? (fun b => pyEqB b.1 k)).map Prod.snd

def allInts : List PyVal → Option (List Int)
  | [] => some []
  | .int i :: rest => (allInts rest).map (i :: ·)
  | _ :: _ => Option.none

/-- Line 319: `sorted(elements_by_page.keys())`.  The sort is modelled on
all-integer key sets (the case the spec speaks about; Python raises
`TypeError` on incomparable mixed keys, which is outside the modelled
claims). -/
def sortedPageKeys (bs : List (PyVal × List ProcessedElem)) : Option (List Int) :=
  (allInts (bs.map Prod.fst)).map (List.insertionSort (· ≤ ·))

/-- The processed element a source list entry contributes: `some` for a
mapping that processes without an exception, `none` for a skipped
non-mapping. -/
def processedOf : PyVal → Option ProcessedElem
  | .dict d => (processElem d).toOption
  | _ => Option.none

/-- Whether an element mapping's `bbox` field is safe for the `page_id`
default expression of line 203: absent, not a list, or a list whose first
entry is a mapping. -/
def bboxOkB (d : List (String × PyVal)) : Bool :=
  match dget d "bbox" with
  | some (.list []) => false
  | some (.list (PyVal.dict _ :: _)) => true
  | some (.list (_ :: _)) => false
  | _ => true

instance : DecidableEq PyVal := fun a b =>
  decidable_of_iff (pyEqB a b = true) (pyEqB_iff a b)

/- ------------------------------------------------------------------ -/
/- Helper lemmas. -/

theorem pyEqB_eq_decide (a b : PyVal) : pyEqB a b = decide (a = b) := by
  cases hpq : pyEqB a b with
  | false =>
    have hne : a ≠ b := by
      intro he
      rw [(pyEqB_iff a b).2 he] at hpq
      exact Bool.noConfusion hpq
    simp [hne]
  | true =>
    simp [(pyEqB_iff a b).1 hpq]

theorem pyTruthy_str_of_ne (s : String) (h : s ≠ "") : pyTruthy (.str s) = true := by
  have he : s.isEmpty = false := by
    cases hb : s.isEmpty
    · rfl
    · exact absurd ((String.isEmpty_iff s).1 hb) h
  simp [pyTruthy, he]

theorem pushElem_elements (acc : RunAcc) (pe : ProcessedElem) :
    (pushElem acc pe).elements = acc.elements ++ [pe] := by
  unfold pushElem
  repeat' split
  all_goals rfl

theorem pushElem_tables (acc : RunAcc) (pe : ProcessedElem) :
    (pushElem acc pe).tables =
      if isTableType pe.type = true then acc.tables ++ [pe] else acc.tables := by
  unfold pushElem
  repeat' split
  all_goals simp_all

theorem pushElem_figures (acc : RunAcc) (pe : ProcessedElem) :
    (pushElem acc pe).figures =
      if isTableType pe.type = false ∧ isFigureType pe.type = true then
        acc.figures ++ [pe]
      else acc.figures := by
  unfold pushElem
  repeat' split
  all_goals simp_all

theorem pushElem_headers (acc : RunAcc) (pe : ProcessedElem) :
    (pushElem acc pe).headers =
      if isTableType pe.type = false ∧ isFigureType pe.type = false ∧
          isHeaderType pe.type = true then
        acc.headers ++ [pe]
      else acc.headers := by
  unfold pushElem
  repeat' split
  all_goals simp_all

theorem tryBody_decode_err (content : PyVal) (e : PyErr)
    (hd : decodeContent content = .error e) :
    tryBody content = .error (e, initResult content) := by
  unfold tryBody
  rw [hd]

theorem tryBody_decode_ok (content parsed : PyVal)
    (hd : decodeContent content = .ok parsed) :
    tryBody content = runStage content (shapeBranch parsed) := by
  unfold tryBody
  rw [hd]

theorem runStage_iter_err (content : PyVal) (sh : ShapeOut) (e : PyErr)
    (hi : iterElems sh.elements = .error e) :
    runStage content sh = .error (e, structuredInit content sh) := by
  unfold runStage
  rw [hi]

theorem runStage_run_err (content : PyVal) (sh : ShapeOut) (items : List PyVal)
    (acc : RunAcc) (e : PyErr)
    (hi : iterElems sh.elements = .ok items)
    (hr : runElems items emptyAcc = (acc, some e)) :
    runStage content sh = .error (e, withAcc (structuredInit content sh) acc) := by
  unfold runStage
  simp only [hi, hr]

theorem runStage_run_ok (content : PyVal) (sh : ShapeOut) (items : List PyVal)
    (acc : RunAcc)
    (hi : iterElems sh.elements = .ok items)
    (hr : runElems items emptyAcc = (acc, Option.none)) :
    runStage content sh =
      .ok { withAcc (structuredInit content sh) acc with
              plain_text := String.intercalate "\n\n" acc.parts } := by
  unfold runStage
  simp only [hi, hr]

/-- The except clause applied to the carried partial result: how
`parse_ai_response` finishes when the try body raised. -/
theorem parse_of_tryBody_err (content : PyVal) (e : PyErr) (rp : ParseResult)
    (ht : pyTruthy content = true)
    (htb : tryBody content = .error (e, rp)) :
    parse_ai_response content =
      (if pyCaught e = true then .ok { rp with plain_text := pyStr content }
       else .error e) := by
  unfold parse_ai_response
  rw [if_pos ht, htb]

theorem parse_of_tryBody_ok (content : PyVal) (r : ParseResult)
    (ht : pyTruthy content = true)
    (htb : tryBody content = .ok r) :
    parse_ai_response content = .ok r := by
  unfold parse_ai_response
  rw [if_pos ht, htb]

/-- Everything `parse_ai_response` returns keeps `raw_content` equal to the
input content: no statement of the source reassigns `result['raw_content']`. -/
theorem raw_content_of_ok (content : PyVal) (r : ParseResult)
    (h : parse_ai_response content = .ok r) : r.raw_content = content := by
  by_cases ht : pyTruthy content = true
  · have hraw : ∀ e rp, tryBody content = .error (e, rp) → rp.raw_content = content := by
      intro e rp htb
      cases hd : decodeContent content with
      | error e2 =>
        rw [tryBody_decode_err content e2 hd] at htb
        simp only [Except.error.injEq, Prod.mk.injEq] at htb
        rw [← htb.2]
        rfl
      | ok parsed =>
        rw [tryBody_decode_ok content parsed hd] at htb
        cases hi : iterElems (shapeBranch parsed).elements with
        | error e2 =>
          rw [runStage_iter_err content _ e2 hi] at htb
          simp only [Except.error.injEq, Prod.mk.injEq] at htb
          rw [← htb.2]
          rfl
        | ok items =>
          rcases hr : runElems items emptyAcc with ⟨acc, oe⟩
          cases oe with
          | none =>
            rw [runStage_run_ok content _ items acc hi hr] at htb
            exact absurd htb (by simp)
          | some e2 =>
            rw [runStage_run_err content _ items acc e2 hi hr] at htb
            simp only [Except.error.injEq, Prod.mk.injEq] at htb
            rw [← htb.2]
            rfl
    cases htb : tryBody content with
    | ok r2 =>
      rw [parse_of_tryBody_ok content r2 ht htb] at h
      simp only [Except.ok.injEq] at h
      subst h
      cases hd : decodeContent content with
      | error e2 => exact absurd htb (by rw [tryBody_decode_err content e2 hd]; simp)
      | ok parsed =>
        rw [tryBody_decode_ok content parsed hd] at htb
        cases hi : iterElems (shapeBranch parsed).elements with
        | error e2 =>
          rw [runStage_iter_err content _ e2 hi] at htb
          exact absurd htb (by simp)
        | ok items =>
          rcases hr : runElems items emptyAcc with ⟨acc, oe⟩
          cases oe with
          | none =>
            rw [runStage_run_ok content _ items acc hi hr] at htb
            simp only [Except.ok.injEq] at htb
            rw [← htb]
            rfl
          | some e2 =>
            rw [runStage_run_err content _ items acc e2 hi hr] at htb
            exact absurd htb (by simp)
    | error ep =>
      rcases ep with ⟨e, rp⟩
      rw [parse_of_tryBody_err content e rp ht htb] at h
      by_cases hc : pyCaught e = true
      · rw [if_pos hc] at h
        simp only [Except.ok.injEq] at h
        subst h
        exact hraw e rp htb
      · rw [if_neg hc] at h
        exact absurd h (by simp)
  · unfold parse_ai_response at h
    rw [if_neg ht] at h
    simp only [Except.ok.injEq] at h
    subst h
    rfl

/-- When every mapping in a prefix of the element list processes without an
exception, the loop runs through the prefix, appending the processed form of
each mapping and skipping non-mappings. -/
theorem runElems_append_ok :
    ∀ (pre rest : List PyVal) (acc : RunAcc),
    (∀ d, PyVal.dict d ∈ pre → ∃ pe, processElem d = .ok pe) →
    ∃ acc2, runElems (pre ++ rest) acc = runElems rest acc2 ∧
      acc2.elements = acc.elements ++ pre.filterMap processedOf
  | [], rest, acc, _ => ⟨acc, by simp [processedOf]⟩
  | x :: pre, rest, acc, h => by
    cases x with
    | dict d =>
      obtain ⟨pe, hpe⟩ := h d (List.mem_cons_self _ _)
      obtain ⟨acc2, h1, h2⟩ := runElems_append_ok pre rest (pushElem acc pe)
        (fun d2 hd2 => h d2 (List.mem_cons_of_mem _ hd2))
      refine ⟨acc2, by simpa [runElems, hpe] using h1, ?_⟩
      rw [h2, pushElem_elements]
      simp [processedOf, hpe, Except.toOption]
    | none =>
      obtain ⟨acc2, h1, h2⟩ := runElems_append_ok pre rest acc
        (fun d2 hd2 => h d2 (List.mem_cons_of_mem _ hd2))
      exact ⟨acc2, by simpa [runElems, processedOf] using ⟨h1, h2⟩⟩
    | bool b =>
      obtain ⟨acc2, h1, h2⟩ := runElems_append_ok pre rest acc
        (fun d2 hd2 => h d2 (List.mem_cons_of_mem _ hd2))
      exact ⟨acc2, by simpa [runElems, processedOf] using ⟨h1, h2⟩⟩
    | int i =>
      obtain ⟨acc2, h1, h2⟩ := runElems_append_ok pre rest acc
        (fun d2 hd2 => h d2 (List.mem_cons_of_mem _ hd2))
      exact ⟨acc2, by simpa [runElems, processedOf] using ⟨h1, h2⟩⟩
    | float t =>
      obtain ⟨acc2, h1, h2⟩ := runElems_append_ok pre rest acc
        (fun d2 hd2 => h d2 (List.mem_cons_of_mem _ hd2))
      exact ⟨acc2, by simpa [runElems, processedOf] using ⟨h1, h2⟩⟩
    | str s =>
      obtain ⟨acc2, h1, h2⟩ := runElems_append_ok pre rest acc
        (fun d2 hd2 => h d2 (List.mem_cons_of_mem _ hd2))
      exact ⟨acc2, by simpa [runElems, processedOf] using ⟨h1, h2⟩⟩
    | list xs =>
      obtain ⟨acc2, h1, h2⟩ := runElems_append_ok pre rest acc
        (fun d2 hd2 => h d2 (List.mem_cons_of_mem _ hd2))
      exact ⟨acc2, by simpa [runElems, processedOf] using ⟨h1, h2⟩⟩

/-- The default expression of line 203 evaluates, under the bbox
well-formedness guard, to the first bbox entry's `page_id` when bbox is a
list with a mapping head, and to `None` otherwise. -/
theorem decodeContent_str (s : String) :
    decodeContent (.str s) =
      (match jsonLoads s with
        | some v => .ok v
        | Option.none => .error .jsonDecodeError) := rfl

theorem pageIdDefault_ok_of_bboxOk (d : List (String × PyVal)) (hb : bboxOkB d = true) :
    pageIdDefault d = .ok (match dget d "bbox" with
      | some (.list (PyVal.dict b0 :: _)) => (dget b0 "page_id").getD .none
      | _ => .none) := by
  unfold bboxOkB at hb
  unfold pageIdDefault
  rcases hbb : dget d "bbox" with _ | v
  · simp [hbb]
  · rw [hbb] at hb
    cases v with
    | list bs =>
      cases bs with
      | nil => simp at hb
      | cons b0 rest =>
        cases b0 <;> simp_all
    | none => simp [hbb]
    | bool b => simp [hbb]
    | int i => simp [hbb]
    | float t => simp [hbb]
    | str s => simp [hbb]
    | dict kvs => simp [hbb]

/-- Unfolding of the shape dispatch at a decoded mapping. -/
theorem shapeBranch_dict (d : List (String × PyVal)) :
    shapeBranch (.dict d) =
      (match dget d "document" with
        | some (.dict dd) =>
            ⟨(dget dd "elements").getD (.list []), filterKey dd "elements", ""⟩
        | _ =>
          match dget d "elements" with
          | some v => ⟨v, filterKey d "elements", ""⟩
          | Option.none =>
            match dget d "content" with
            | some v => ⟨.list [], [], pyStr v⟩
            | Option.none =>
              match dget d "text" with
              | some v => ⟨.list [], [], pyStr v⟩
              | Option.none => ⟨.list [], d, ""⟩) := rfl

/-- When no `document` key with mapping value is present, the dispatch falls
through to the later branches. -/
theorem shapeBranch_dict_nodoc (d : List (String × PyVal))
    (hnd : ∀ dd, dget d "document" ≠ some (.dict dd)) :
    shapeBranch (.dict d) =
      (match dget d "elements" with
        | some v => ⟨v, filterKey d "elements", ""⟩
        | Option.none =>
          match dget d "content" with
          | some v => ⟨.list [], [], pyStr v⟩
          | Option.none =>
            match dget d "text" with
            | some v => ⟨.list [], [], pyStr v⟩
            | Option.none => ⟨.list [], d, ""⟩) := by
  rw [shapeBranch_dict]
  rcases hdoc : dget d "document" with _ | w
  · rfl
  · cases w with
    | dict dd => exact absurd hdoc (hnd dd)
    | none => rfl
    | bool b => rfl
    | int i => rfl
    | float t => rfl
    | str s => rfl
    | list xs => rfl

/-- Like `raw_content_of_ok`: once decoding succeeded, whatever way the call
finishes normally, `result['metadata']` is what the shape branch assigned —
neither the element loop nor the except clause touches it. -/
theorem metadata_of_ok (content parsed : PyVal) (r : ParseResult)
    (ht : pyTruthy content = true)
    (hd : decodeContent content = .ok parsed)
    (h : parse_ai_response content = .ok r) :
    r.metadata = (shapeBranch parsed).metadata := by
  have htb0 := tryBody_decode_ok content parsed hd
  cases hi : iterElems (shapeBranch parsed).elements with
  | error e =>
    rw [runStage_iter_err content _ e hi] at htb0
    rw [parse_of_tryBody_err _ _ _ ht htb0] at h
    by_cases hc : pyCaught e = true
    · rw [if_pos hc] at h
      simp only [Except.ok.injEq] at h
      rw [← h]
      rfl
    · rw [if_neg hc] at h
      exact absurd h (by simp)
  | ok items =>
    rcases hr : runElems items emptyAcc with ⟨acc, oe⟩
    cases oe with
    | none =>
      rw [runStage_run_ok content _ items acc hi hr] at htb0
      rw [parse_of_tryBody_ok _ _ ht htb0] at h
      simp only [Except.ok.injEq] at h
      rw [← h]
      rfl
    | some e =>
      rw [runStage_run_err content _ items acc e hi hr] at htb0
      rw [parse_of_tryBody_err _ _ _ ht htb0] at h
      by_cases hc : pyCaught e = true
      · rw [if_pos hc] at h
        simp only [Except.ok.injEq] at h
        rw [← h]
        rfl
      · rw [if_neg hc] at h
        exact absurd h (by simp)

theorem isTableType_false_of_figure (t : String) (h : isFigureType t = true) :
    isTableType t = false := by
  simp only [isFigureType, Bool.or_eq_true, beq_iff_eq] at h
  rcases h with (((h | h) | h) | h) | h <;> subst h <;> rfl

theorem isTableType_false_of_header (t : String) (h : isHeaderType t = true) :
    isTableType t = false := by
  simp only [isHeaderType, Bool.or_eq_true, beq_iff_eq] at h
  rcases h with (((h | h) | h) | h) | h <;> subst h <;> rfl

theorem isFigureType_false_of_header (t : String) (h : isHeaderType t = true) :
    isFigureType t = false := by
  simp only [isHeaderType, Bool.or_eq_true, beq_iff_eq] at h
  rcases h with (((h | h) | h) | h) | h <;> subst h <;> rfl

theorem bucketLookup_nil (k : PyVal) : bucketLookup [] k = Option.none := rfl

theorem bucketLookup_cons (k1 : PyVal) (l1 : List ProcessedElem)
    (rest : List (PyVal × List ProcessedElem)) (k : PyVal) :
    bucketLookup ((k1, l1) :: rest) k =
      if k1 = k then some l1 else bucketLookup rest k := by
  unfold bucketLookup
  by_cases h : k1 = k <;> simp [List.find?_cons, pyEqB_eq_decide, h]

theorem bucketLookup_addToBuckets (bs : List (PyVal × List ProcessedElem))
    (k0 : PyVal) (e : ProcessedElem) (k : PyVal) :
    bucketLookup (addToBuckets bs k0 e) k =
      if k0 = k then some ((bucketLookup bs k).getD [] ++ [e])
      else bucketLookup bs k := by
  induction bs with
  | nil =>
    by_cases h : k0 = k <;>
      simp [addToBuckets, bucketLookup_cons, bucketLookup_nil, h]
  | cons b rest ih =>
    rcases b with ⟨k1, l1⟩
    by_cases h1 : k1 = k0
    · subst h1
      have hq : pyEqB k1 k1 = true := (pyEqB_iff k1 k1).2 rfl
      simp only [addToBuckets, hq, if_true]
      by_cases h2 : k1 = k
      · subst h2
        simp [bucketLookup_cons]
      · simp [bucketLookup_cons, h2]
    · have hb : pyEqB k1 k0 = false := by
        cases hq : pyEqB k1 k0
        · rfl
        · exact absurd ((pyEqB_iff k1 k0).1 hq) h1
      simp only [addToBuckets, hb, Bool.false_eq_true, if_false]
      by_cases h2 : k1 = k
      · subst h2
        have hne : k0 ≠ k1 := fun hh => h1 hh.symm
        simp [bucketLookup_cons, hne]
      · simp [bucketLookup_cons, h2, ih]

/-- Invariant of the grouping loop at src/app.py lines 307-314: the no-page
list extends in element order, and each bucket holds exactly the elements
whose `page_id` equals the bucket key, in element order. -/
theorem groupByPageAux_spec :
    ∀ (es : List ProcessedElem) (bs : List (PyVal × List ProcessedElem))
      (nop : List ProcessedElem),
    (groupByPageAux es (bs, nop)).2 = nop ++ es.filter (fun e => isNone e.page_id) ∧
    ∀ k, bucketLookup (groupByPageAux es (bs, nop)).1 k =
      (if (bucketLookup bs k).isSome ||
          !(es.filter (fun e => !isNone e.page_id && decide (e.page_id = k))).isEmpty then
        some ((bucketLookup bs k).getD [] ++
          es.filter (fun e => !isNone e.page_id && decide (e.page_id = k)))
      else Option.none)
  | [], bs, nop => by
    constructor
    · simp [groupByPageAux]
    · intro k
      simp only [groupByPageAux, List.filter_nil]
      cases hlk : bucketLookup bs k <;> simp [hlk]
  | e :: es, bs, nop => by
    by_cases hn : isNone e.page_id = true
    · have ih := groupByPageAux_spec es bs (nop ++ [e])
      have hred : groupByPageAux (e :: es) (bs, nop) =
          groupByPageAux es (bs, nop ++ [e]) := by
        simp [groupByPageAux, hn]
      constructor
      · rw [hred, ih.1]
        simp [List.filter_cons, hn]
      · intro k
        rw [hred, ih.2 k]
        simp [List.filter_cons, hn]
    · have ih := groupByPageAux_spec es (addToBuckets bs e.page_id e) nop
      have hred : groupByPageAux (e :: es) (bs, nop) =
          groupByPageAux es (addToBuckets bs e.page_id e, nop) := by
        simp [groupByPageAux, hn]
      constructor
      · rw [hred, ih.1]
        simp [List.filter_cons, hn]
      · intro k
        rw [hred, ih.2 k, bucketLookup_addToBuckets]
        by_cases hk : e.page_id = k
        · subst hk
          cases hlk : bucketLookup bs e.page_id <;>
            simp [List.filter_cons, hn, hlk]
        · simp [List.filter_cons, hn, hk]

theorem allInts_eq_map :
    ∀ (vs : List PyVal) (l : List Int), allInts vs = some l → vs = l.map PyVal.int
  | [], l, h => by
    simp only [allInts, Option.some.injEq] at h
    rw [← h]
    rfl
  | .int i :: vs, l, h => by
    simp only [allInts, Option.map_eq_some'] at h
    obtain ⟨l2, h1, h2⟩ := h
    rw [← h2]
    simp [allInts_eq_map vs l2 h1]
  | .none :: vs, l, h => by simp [allInts] at h
  | .bool b :: vs, l, h => by simp [allInts] at h
  | .float t :: vs, l, h => by simp [allInts] at h
  | .str s :: vs, l, h => by simp [allInts] at h
  | .list xs :: vs, l, h => by simp [allInts] at h
  | .dict kvs :: vs, l, h => by simp [allInts] at h

/- ------------------------------------------------------------------ -/
/- Claim theorems. -/

/-- C1: the claim says `parse_ai_response` never lets any exception
propagate, for any input.  The code refutes the claim at an element whose
`bbox` is an empty list: the `page_id` default expression of line 203
indexes `[0]` into it and the resulting `IndexError` is not in the except
clause of line 226, so it propagates to the caller.  This theorem evaluates
the normalizer at that failing input. -/
theorem C1_bbox_empty_list_raises_indexerror :
    parse_ai_response (.str "[\x7b\"bbox\": []\x7d]") = .error .indexError := rfl

/-- C2: the claim says `\x7b"content": "hello"\x7d` yields
`plainText = "hello"`.  The code sets `plain_text` to `"hello"` at line 178
but line 224 unconditionally overwrites it with the join of the (empty)
parts list, so the returned document has `plain_text = ""` (and `elements`
empty, as claimed).  This theorem evaluates the normalizer at that input. -/
theorem C2_content_key_plain_text_overwritten :
    parse_ai_response (.str "\x7b\"content\": \"hello\"\x7d") =
      .ok { is_json := true, elements := [],
            raw_content := .str "\x7b\"content\": \"hello\"\x7d", plain_text := "",
            tables := [], figures := [], headers := [], metadata := [] } := rfl

/-- C3 counterexample: the claim says a malformed entry (here: first entry
with `bbox = [5]`, a non-mapping first bbox item) is handled in isolation
and the other entries still appear in the output's elements.  In the code
the `AttributeError` aborts the loop and is caught by the whole-body except
clause, so the well-formed second entry is never processed: `elements` is
empty. -/
theorem C3_cex_malformed_bbox_aborts_other_entries :
    parse_ai_response
        (.str "[\x7b\"bbox\": [5]\x7d, \x7b\"type\": \"text\", \"content\": \"x\"\x7d]") =
      .ok { is_json := true, elements := [],
            raw_content := .str "[\x7b\"bbox\": [5]\x7d, \x7b\"type\": \"text\", \"content\": \"x\"\x7d]",
            plain_text := "[\x7b\"bbox\": [5]\x7d, \x7b\"type\": \"text\", \"content\": \"x\"\x7d]",
            tables := [], figures := [], headers := [], metadata := [] } := rfl

/-- C3 (amended): non-mapping entries are skipped and mappings with merely
missing fields are defaulted field-by-field, each entry in isolation —
provided no entry raises: when every mapping entry of the elements source
processes without an exception, normalization succeeds and `elements`
contains exactly the processed mapping entries, in order.  (An entry that
raises — empty-list bbox, non-mapping first bbox item, non-string type —
aborts the remaining entries instead, as the counterexample shows.) -/
theorem C3_amended_isolated_processing (content parsed : PyVal) (items : List PyVal)
    (ht : pyTruthy content = true)
    (hd : decodeContent content = .ok parsed)
    (hi : iterElems (shapeBranch parsed).elements = .ok items)
    (hok : ∀ d, PyVal.dict d ∈ items → ∃ pe, processElem d = .ok pe) :
    ∃ r, parse_ai_response content = .ok r ∧
      r.elements = items.filterMap processedOf := by
  obtain ⟨acc2, h1, h2⟩ := runElems_append_ok items [] emptyAcc hok
  have hr : runElems items emptyAcc = (acc2, Option.none) := by
    rw [List.append_nil] at h1
    rw [h1]
    rfl
  have htb := tryBody_decode_ok content parsed hd
  rw [runStage_run_ok content _ items acc2 hi hr] at htb
  exact ⟨_, parse_of_tryBody_ok content _ ht htb,
    by simpa [withAcc, structuredInit, initResult, emptyAcc] using h2⟩

/-- Witness for C3: skipping the non-mapping entry `1`, the mapping entry is
processed and appears in `elements`. -/
theorem C3_witness :
    (parse_ai_response (.str "[1, \x7b\"type\": \"text\", \"content\": \"a\"\x7d]")).map
        ParseResult.elements =
      .ok (List.filterMap processedOf
        [.int 1, .dict [("type", .str "text"), ("content", .str "a")]]) := by
  obtain ⟨r, h1, h2⟩ := C3_amended_isolated_processing
    (.str "[1, \x7b\"type\": \"text\", \"content\": \"a\"\x7d]")
    (.list [.int 1, .dict [("type", .str "text"), ("content", .str "a")]])
    [.int 1, .dict [("type", .str "text"), ("content", .str "a")]]
    rfl rfl rfl
    (by
      intro d hdm
      simp only [List.mem_cons, List.not_mem_nil, or_false] at hdm
      rcases hdm with h | h
      · exact absurd h (by simp)
      · rw [show d = [("type", PyVal.str "text"), ("content", PyVal.str "a")] by
          injection h]
        exact ⟨_, rfl⟩)
  rw [h1]
  simp [Except.map, h2]

/-- C4 counterexample: the claim says the download-as-text export data is
exactly `plainText`.  At the metadata-only input, `plain_text` is the empty
string while the export falls back to `raw_content` (line 359:
`parsed['plain_text'] or parsed['raw_content']`), so the exported data is
not `plainText`. -/
theorem C4_cex_text_export_falls_back_to_raw :
    (parse_ai_response (.str "\x7b\"a\": 1\x7d")).map
        (fun r => (downloadTextData r, r.plain_text)) =
      .ok (.str "\x7b\"a\": 1\x7d", "") ∧
    PyVal.str "\x7b\"a\": 1\x7d" ≠ PyVal.str "" := ⟨rfl, by decide⟩

/-- C4 (amended): the download-as-JSON export data is exactly `rawContent`,
which equals the verbatim original input; the download-as-text export data
is exactly `plainText` when `plainText` is non-empty, and falls back to
`rawContent` when `plainText` is empty. -/
theorem C4_amended_export_data (content : PyVal) (r : ParseResult)
    (h : parse_ai_response content = .ok r) :
    downloadJsonData r = content ∧
    (r.plain_text ≠ "" → downloadTextData r = .str r.plain_text) ∧
    (r.plain_text = "" → downloadTextData r = content) := by
  have hraw := raw_content_of_ok content r h
  refine ⟨hraw, ?_, ?_⟩
  · intro hp
    simp [downloadTextData, hp]
  · intro hp
    simp [downloadTextData, hp, downloadJsonData, hraw]

/-- Witness for C4 at a plain-text input. -/
theorem C4_witness :
    downloadJsonData ⟨false, [], .str "just some text", "just some text", [], [], [], []⟩ =
      .str "just some text" ∧
    downloadTextData ⟨false, [], .str "just some text", "just some text", [], [], [], []⟩ =
      .str "just some text" := by
  have h := C4_amended_export_data (.str "just some text")
    ⟨false, [], .str "just some text", "just some text", [], [], [], []⟩ rfl
  exact ⟨h.1, by rw [h.2.1 (by decide)]⟩

/-- C5 counterexample: the claim says an element's own `page_id` field, when
present, wins.  But Python evaluates the `dict.get` default argument
eagerly, so with `page_id` present and `bbox = []` the element does not
resolve `pageId = 1`: processing raises `IndexError` instead. -/
theorem C5_cex_own_page_id_does_not_win :
    processElem [("page_id", .int 1), ("bbox", .list [])] = .error .indexError := rfl

/-- C5 (amended): provided the element's `bbox` field, when it is a list, is
non-empty with a mapping first entry (otherwise the eagerly evaluated
default expression raises IndexError/AttributeError even when `page_id` is
present), the resolution precedence is as claimed: the element's own
`page_id` field if present; else the first bbox entry's `page_id` if
present; else `None`. -/
theorem C5_amended_page_id_precedence (d : List (String × PyVal))
    (hb : bboxOkB d = true) :
    (∀ v, dget d "page_id" = some v → resolvePageId d = .ok v) ∧
    (dget d "page_id" = Option.none →
      ∀ b0 bs, dget d "bbox" = some (.list (PyVal.dict b0 :: bs)) →
        resolvePageId d = .ok ((dget b0 "page_id").getD .none)) ∧
    (dget d "page_id" = Option.none →
      (∀ bs, dget d "bbox" ≠ some (.list bs)) →
      resolvePageId d = .ok .none) := by
  have hdf := pageIdDefault_ok_of_bboxOk d hb
  refine ⟨?_, ?_, ?_⟩
  · intro v hv
    unfold resolvePageId
    rw [hdf]
    simp [hv]
  · intro hnone b0 bs hbb
    unfold resolvePageId
    rw [hdf]
    simp only [hbb, hnone]
    simp
  · intro hnone hnb
    unfold resolvePageId
    rw [hdf]
    rcases hbb : dget d "bbox" with _ | v
    · simp [hbb, hnone]
    · cases v with
      | list bs => exact absurd hbb (hnb bs)
      | none => simp [hbb, hnone]
      | bool b => simp [hbb, hnone]
      | int i => simp [hbb, hnone]
      | float t => simp [hbb, hnone]
      | str s => simp [hbb, hnone]
      | dict kvs => simp [hbb, hnone]

/-- Witness for C5: `bbox = [\x7b"page_id": 3\x7d]` and no direct `page_id`
resolves to 3. -/
theorem C5_witness :
    resolvePageId [("bbox", .list [.dict [("page_id", .int 3)]])] = .ok (.int 3) := by
  have h := C5_amended_page_id_precedence
    [("bbox", .list [.dict [("page_id", .int 3)]])] rfl
  exact h.2.1 rfl [("page_id", .int 3)] [] rfl

/-- C8: a non-empty input string on which structured decoding fails yields
the plain-text fallback: `is_json = false`, `plain_text` the input verbatim,
all derived sequences empty, and no error escapes to the caller. -/
theorem C8_decode_failure_plain_text_fallback (s : String) (hne : s ≠ "")
    (hj : jsonLoads s = Option.none) :
    parse_ai_response (.str s) =
      .ok { is_json := false, elements := [], raw_content := .str s,
            plain_text := s, tables := [], figures := [], headers := [],
            metadata := [] } := by
  have ht := pyTruthy_str_of_ne s hne
  have hd : decodeContent (.str s) = .error .jsonDecodeError := by
    rw [decodeContent_str, hj]
  rw [parse_of_tryBody_err _ _ _ ht (tryBody_decode_err _ _ hd)]
  rfl

/-- Witness for C8 at the spec's example input. -/
theorem C8_witness :
    parse_ai_response (.str "just some text") =
      .ok { is_json := false, elements := [], raw_content := .str "just some text",
            plain_text := "just some text", tables := [], figures := [],
            headers := [], metadata := [] } :=
  C8_decode_failure_plain_text_fallback "just some text" (by decide) rfl

/-- C10: when the JSON decode succeeds but processing of some element raises
a TypeError or AttributeError, the except clause produces the hybrid result:
`is_json = true`, `elements` holding exactly the entries fully processed
before the failing one, and `plain_text` overwritten with `str` of the whole
raw input. -/
theorem C10_hybrid_result_on_element_exception (s : String) (v : PyVal)
    (items pre post : List PyVal) (d : List (String × PyVal)) (err : PyErr)
    (hj : jsonLoads s = some v)
    (hi : iterElems (shapeBranch v).elements = .ok items)
    (hsplit : items = pre ++ PyVal.dict d :: post)
    (hok : ∀ d2, PyVal.dict d2 ∈ pre → ∃ pe, processElem d2 = .ok pe)
    (herr : processElem d = .error err)
    (hcaught : err = .typeError ∨ err = .attrError) :
    ∃ r, parse_ai_response (.str s) = .ok r ∧
      r.is_json = true ∧ r.elements = pre.filterMap processedOf ∧
      r.plain_text = s ∧ r.raw_content = .str s := by
  have hne : s ≠ "" := by
    intro he
    subst he
    rw [show jsonLoads "" = Option.none from rfl] at hj
    exact Option.noConfusion hj
  have ht := pyTruthy_str_of_ne s hne
  have hd : decodeContent (.str s) = .ok v := by
    rw [decodeContent_str, hj]
  obtain ⟨acc2, h1, h2⟩ := runElems_append_ok pre (PyVal.dict d :: post) emptyAcc hok
  have hr : runElems items emptyAcc = (acc2, some err) := by
    rw [hsplit, h1]
    simp [runElems, herr]
  have htb : tryBody (.str s) =
      .error (err, withAcc (structuredInit (.str s) (shapeBranch v)) acc2) := by
    rw [tryBody_decode_ok _ v hd]
    exact runStage_run_err _ _ items acc2 err hi hr
  have hpc : pyCaught err = true := by
    rcases hcaught with h | h <;> subst h <;> rfl
  refine ⟨_, by rw [parse_of_tryBody_err _ _ _ ht htb, if_pos hpc], ?_, ?_, ?_, ?_⟩
  · rfl
  · simpa [withAcc, structuredInit, initResult, emptyAcc] using h2
  · rfl
  · rfl

/-- Witness for C10: the first element processes, the second has a
non-string `type` and raises `AttributeError` from `.lower()`. -/
theorem C10_witness :
    (parse_ai_response (.str "[\x7b\"content\": \"a\"\x7d, \x7b\"type\": 0\x7d]")).map
        (fun r => (r.is_json, r.elements, r.plain_text, r.raw_content)) =
      .ok (true, List.filterMap processedOf [.dict [("content", .str "a")]],
           "[\x7b\"content\": \"a\"\x7d, \x7b\"type\": 0\x7d]",
           .str "[\x7b\"content\": \"a\"\x7d, \x7b\"type\": 0\x7d]") := by
  obtain ⟨r, h0, h1, h2, h3, h4⟩ := C10_hybrid_result_on_element_exception
    "[\x7b\"content\": \"a\"\x7d, \x7b\"type\": 0\x7d]"
    (.list [.dict [("content", .str "a")], .dict [("type", .int 0)]])
    [.dict [("content", .str "a")], .dict [("type", .int 0)]]
    [.dict [("content", .str "a")]] [] [("type", .int 0)] .attrError
    rfl rfl rfl
    (by
      intro d2 hdm
      simp only [List.mem_cons, List.not_mem_nil, or_false] at hdm
      rw [show d2 = [("content", PyVal.str "a")] by injection hdm]
      exact ⟨_, rfl⟩)
    rfl (Or.inr rfl)
  rw [h0]
  simp [Except.map, h1, h2, h3, h4]

/-- C6: on a successfully decoded mapping the branch priority is: a
`document` key with mapping value wins (elements source `document.elements`
or empty, metadata all other keys of the document mapping); else an
`elements` key wins (metadata all other top-level keys); else `content`;
else `text`; else the whole mapping becomes the metadata with no elements.
The final conjunct ties the branch's metadata to the returned document for
any run that finishes normally. -/
theorem C6_branch_priority (d : List (String × PyVal)) :
    (∀ dd, dget d "document" = some (.dict dd) →
      shapeBranch (.dict d) =
        ⟨(dget dd "elements").getD (.list []), filterKey dd "elements", ""⟩) ∧
    ((∀ dd, dget d "document" ≠ some (.dict dd)) →
      ∀ v, dget d "elements" = some v →
        shapeBranch (.dict d) = ⟨v, filterKey d "elements", ""⟩) ∧
    ((∀ dd, dget d "document" ≠ some (.dict dd)) →
      dget d "elements" = Option.none →
      ∀ v, dget d "content" = some v →
        shapeBranch (.dict d) = ⟨.list [], [], pyStr v⟩) ∧
    ((∀ dd, dget d "document" ≠ some (.dict dd)) →
      dget d "elements" = Option.none →
      dget d "content" = Option.none →
      ∀ v, dget d "text" = some v →
        shapeBranch (.dict d) = ⟨.list [], [], pyStr v⟩) ∧
    ((∀ dd, dget d "document" ≠ some (.dict dd)) →
      dget d "elements" = Option.none →
      dget d "content" = Option.none →
      dget d "text" = Option.none →
      shapeBranch (.dict d) = ⟨.list [], d, ""⟩) ∧
    (∀ r, parse_ai_response (.dict d) = .ok r →
      r.metadata = (shapeBranch (.dict d)).metadata) := by
  refine ⟨?_, ?_, ?_, ?_, ?_, ?_⟩
  · intro dd hdd
    rw [shapeBranch_dict, hdd]
  · intro hnd v hv
    rw [shapeBranch_dict_nodoc d hnd, hv]
  · intro hnd he v hv
    rw [shapeBranch_dict_nodoc d hnd, he, hv]
  · intro hnd he hc v hv
    rw [shapeBranch_dict_nodoc d hnd, he, hc, hv]
  · intro hnd he hc htx
    rw [shapeBranch_dict_nodoc d hnd, he, hc, htx]
  · intro r hr
    by_cases ht : pyTruthy (.dict d) = true
    · exact metadata_of_ok (.dict d) (.dict d) r ht rfl hr
    · have hd0 : d = [] := by
        revert ht
        simp [pyTruthy]
      subst hd0
      unfold parse_ai_response at hr
      rw [if_neg ht] at hr
      simp only [Except.ok.injEq] at hr
      rw [← hr]
      rfl

/-- Witness for C6: a document-wrapped payload with `page_count` keeps
`page_count` in the metadata and excludes `elements`, both at the branch
level and in the returned document. -/
theorem C6_witness :
    shapeBranch (.dict [("document",
        .dict [("elements", .list []), ("page_count", .int 7)])]) =
      ⟨.list [], [("page_count", .int 7)], ""⟩ ∧
    (parse_ai_response (.dict [("document",
        .dict [("elements", .list []), ("page_count", .int 7)])])).map
      ParseResult.metadata = .ok [("page_count", .int 7)] := by
  have h := C6_branch_priority
    [("document", .dict [("elements", .list []), ("page_count", .int 7)])]
  refine ⟨?_, ?_⟩
  · exact h.1 [("elements", .list []), ("page_count", .int 7)] rfl
  · rw [show parse_ai_response (.dict [("document",
        .dict [("elements", .list []), ("page_count", .int 7)])]) =
      .ok { is_json := true, elements := [],
            raw_content := .dict [("document",
              .dict [("elements", .list []), ("page_count", .int 7)])],
            plain_text := "", tables := [], figures := [], headers := [],
            metadata := [("page_count", .int 7)] } from rfl]
    rfl

/-- C7: classification of an element that processes successfully is pure and
case-insensitive: the stored type is the lowercased label ("unknown" when
the label is missing); a label lowercasing into the table synonyms puts the
same processed element into both `elements` and `tables` (and no other
bucket), likewise for figures and headers; any other or missing label gets
no bucket at all. -/
theorem C7_classification (d : List (String × PyVal)) (pe : ProcessedElem)
    (hpe : processElem d = .ok pe) :
    (∀ s, dget d "type" = some (.str s) → pe.type = strLower s) ∧
    (dget d "type" = Option.none → pe.type = "unknown") ∧
    (runElems [.dict d] emptyAcc).1.elements = [pe] ∧
    (runElems [.dict d] emptyAcc).2 = Option.none ∧
    (isTableType pe.type = true →
      (runElems [.dict d] emptyAcc).1.tables = [pe] ∧
      (runElems [.dict d] emptyAcc).1.figures = [] ∧
      (runElems [.dict d] emptyAcc).1.headers = []) ∧
    (isFigureType pe.type = true →
      (runElems [.dict d] emptyAcc).1.figures = [pe] ∧
      (runElems [.dict d] emptyAcc).1.tables = [] ∧
      (runElems [.dict d] emptyAcc).1.headers = []) ∧
    (isHeaderType pe.type = true →
      (runElems [.dict d] emptyAcc).1.headers = [pe] ∧
      (runElems [.dict d] emptyAcc).1.tables = [] ∧
      (runElems [.dict d] emptyAcc).1.figures = []) ∧
    (isTableType pe.type = false → isFigureType pe.type = false →
      isHeaderType pe.type = false →
      (runElems [.dict d] emptyAcc).1.tables = [] ∧
      (runElems [.dict d] emptyAcc).1.figures = [] ∧
      (runElems [.dict d] emptyAcc).1.headers = []) := by
  have hrun : runElems [.dict d] emptyAcc = (pushElem emptyAcc pe, Option.none) := by
    simp [runElems, hpe]
  refine ⟨?_, ?_, ?_, ?_, ?_, ?_, ?_, ?_⟩
  · intro s hs
    unfold processElem at hpe
    rw [hs] at hpe
    simp only [Option.getD_some] at hpe
    cases hrp : resolvePageId d with
    | error e =>
      rw [hrp] at hpe
      exact absurd hpe (by simp [pyLower])
    | ok p =>
      rw [hrp] at hpe
      simp only [pyLower, Except.ok.injEq] at hpe
      rw [← hpe]
  · intro hs
    unfold processElem at hpe
    rw [hs] at hpe
    simp only [Option.getD_none] at hpe
    cases hrp : resolvePageId d with
    | error e =>
      rw [hrp] at hpe
      exact absurd hpe (by simp [pyLower])
    | ok p =>
      rw [hrp] at hpe
      simp only [pyLower, Except.ok.injEq] at hpe
      rw [← hpe]
      rfl
  · rw [hrun, pushElem_elements]
    rfl
  · rw [hrun]
  · intro h
    rw [hrun]
    simp [pushElem_tables, pushElem_figures, pushElem_headers, h, emptyAcc]
  · intro h
    have ht := isTableType_false_of_figure pe.type h
    rw [hrun]
    simp [pushElem_tables, pushElem_figures, pushElem_headers, h, ht, emptyAcc]
  · intro h
    have ht := isTableType_false_of_header pe.type h
    have hf := isFigureType_false_of_header pe.type h
    rw [hrun]
    simp [pushElem_tables, pushElem_figures, pushElem_headers, h, ht, hf, emptyAcc]
  · intro h1 h2 h3
    rw [hrun]
    simp [pushElem_tables, pushElem_figures, pushElem_headers, h1, h2, h3, emptyAcc]

/-- Witness for C7: an element typed "TABLE" classifies case-insensitively
as a table and lands, with the same field values, in both `elements` and
`tables`. -/
theorem C7_witness :
    (runElems [.dict [("type", .str "TABLE"), ("content", .str "t")]] emptyAcc).1.elements =
      [⟨"table", .str "t", .str "", .none, .none, .none,
        .dict [("type", .str "TABLE"), ("content", .str "t")]⟩] ∧
    (runElems [.dict [("type", .str "TABLE"), ("content", .str "t")]] emptyAcc).1.tables =
      [⟨"table", .str "t", .str "", .none, .none, .none,
        .dict [("type", .str "TABLE"), ("content", .str "t")]⟩] ∧
    (runElems [.dict [("type", .str "TABLE"), ("content", .str "t")]] emptyAcc).1.figures = [] := by
  have h := C7_classification [("type", .str "TABLE"), ("content", .str "t")]
    ⟨"table", .str "t", .str "", .none, .none, .none,
      .dict [("type", .str "TABLE"), ("content", .str "t")]⟩ (by rfl)
  exact ⟨h.2.2.1, (h.2.2.2.2.1 rfl).1, (h.2.2.2.2.1 rfl).2.1⟩

/-- C9: the consumer-side page grouping buckets elements with a defined
`page_id` by that value and `None`-page elements into the separate no-page
list; every bucket holds exactly its elements in original order; and on
all-integer key sets the presented keys are sorted ascending (a permutation
of the bucket keys). -/
theorem C9_page_grouping (es : List ProcessedElem) :
    (groupByPage es).2 = es.filter (fun e => isNone e.page_id) ∧
    (∀ k, bucketLookup (groupByPage es).1 k =
      (if (es.filter (fun e => !isNone e.page_id && decide (e.page_id = k))).isEmpty then
         Option.none
       else some (es.filter (fun e => !isNone e.page_id && decide (e.page_id = k))))) ∧
    (∀ ks, sortedPageKeys (groupByPage es).1 = some ks →
      List.Sorted (· ≤ ·) ks ∧
      (ks.map PyVal.int).Perm ((groupByPage es).1.map Prod.fst)) := by
  have h := groupByPageAux_spec es [] []
  refine ⟨by simpa using h.1, ?_, ?_⟩
  · intro k
    have h2 := h.2 k
    rw [show groupByPage es = groupByPageAux es ([], []) from rfl, h2]
    cases hf : (es.filter (fun e => !isNone e.page_id && decide (e.page_id = k))).isEmpty <;>
      simp [bucketLookup_nil, hf]
  · intro ks hks
    unfold sortedPageKeys at hks
    obtain ⟨l, hl, hmap⟩ := Option.map_eq_some'.1 hks
    constructor
    · rw [← hmap]
      exact List.sorted_insertionSort _ l
    · rw [← hmap, allInts_eq_map _ l hl]
      exact (List.perm_insertionSort _ l).map PyVal.int

/-- Witness for C9: pages 2 and 1 plus one no-page element; the no-page
bucket, the page-1 bucket and the ascending key presentation are as the
theorem states. -/
theorem C9_witness :
    (groupByPage
      [⟨"text", .str "a", .str "", .none, .int 2, .none, .dict []⟩,
       ⟨"text", .str "b", .str "", .none, .int 1, .none, .dict []⟩,
       ⟨"text", .str "c", .str "", .none, .none, .none, .dict []⟩]).2 =
      [⟨"text", .str "c", .str "", .none, .none, .none, .dict []⟩] ∧
    bucketLookup (groupByPage
      [⟨"text", .str "a", .str "", .none, .int 2, .none, .dict []⟩,
       ⟨"text", .str "b", .str "", .none, .int 1, .none, .dict []⟩,
       ⟨"text", .str "c", .str "", .none, .none, .none, .dict []⟩]).1 (.int 1) =
      some [⟨"text", .str "b", .str "", .none, .int 1, .none, .dict []⟩] ∧
    List.Sorted (· ≤ ·) [(1 : Int), 2] := by
  have h := C9_page_grouping
    [⟨"text", .str "a", .str "", .none, .int 2, .none, .dict []⟩,
     ⟨"text", .str "b", .str "", .none, .int 1, .none, .dict []⟩,
     ⟨"text", .str "c", .str "", .none, .none, .none, .dict []⟩]
  refine ⟨?_, ?_, ?_⟩
  · rw [h.1]
    rfl
  · rw [h.2.1 (.int 1)]
    rfl
  · exact (h.2.2 [1, 2] (by rfl)).1

end DocApp

